import Mathlib

/-!
# Verification of the "Dynamic Quote Generator" (alx_fe_javascript)

Shallow embedding of the quote-generator application.  The repository holds
four variants of the same single-page script:

* `script.js`, first document ("variant A"): the sync-enabled variant with
  `loadQuotes`, `addQuote`, `importQuotes`, `fetchQuotesFromServer`,
  `syncQuotes`, `showRandomQuote`;
* `script.js`, second document ("variant B"): the category-filter variant with
  validating `loadQuotes`, clamped `showRandomQuote`, de-duplicating
  `importFromJsonFile`, `filterQuote`;
* `unnamed/part_000` ("variant P0"): append-all `importFromJsonFile`;
* `unnamed/part_002` ("variant P2"): validating loader, clamped
  `showRandomQuote`, de-duplicating `importFromJsonFile` (same code as
  variant B minus the filter).

Browser state is made explicit: the in-memory collection is a list, durable
storage is modelled by the parsed content of the `alx_quotes_v1` key
(`Option` of a collection: `none` when absent), a shown modal message is an
`Option String`, and console output is a `List String`.  `JSON.parse` results
are modelled by the inductive `JValue` (parse failure as `Except.error`);
`JSON.stringify` followed by `JSON.parse` of a quote list is the identity on
its `JValue` encoding, which `exportJson` captures.
-/

/-- A quote record `{text, category}`, the sole domain entity. -/
structure Quote where
  text : String
  category : String
deriving DecidableEq, Repr

/-- The three built-in default quotes (`DEFAULT_QUOTES` in every variant). -/
def DEFAULT_QUOTES : List Quote :=
  [⟨"The only limit to our realization of tomorrow is our doubts of today.", "Motivation"⟩,
   ⟨"In the middle of difficulty lies opportunity.", "Inspiration"⟩,
   ⟨"Simplicity is the soul of efficiency.", "Productivity"⟩]

/-- A parsed JSON value, the result of a successful `JSON.parse`.
Objects are association lists; `JSON.parse` output has unique keys, so
first-match field lookup agrees with JavaScript property access. -/
inductive JValue where
  | jnull
  | jbool (b : Bool)
  | jnum (n : Int)
  | jstr (s : String)
  | jarr (elems : List JValue)
  | jobj (fields : List (String × JValue))
deriving Repr

/-- Field lookup on a parsed JSON object (JavaScript property access). -/
def lookupField (fields : List (String × JValue)) (k : String) : Option JValue :=
  match fields with
  | [] => none
  | (k', v) :: rest => if k' = k then some v else lookupField rest k

/-- The element validation `q && typeof q.text === "string" && typeof
q.category === "string"` used by variants B and P2: only an object whose
`text` and `category` fields are strings passes (for any non-object,
property access yields `undefined`, which is not a string). -/
def isQuoteObj (v : JValue) : Bool :=
  match v with
  | .jobj fields =>
    (match lookupField fields "text" with
     | some (.jstr _) => true
     | _ => false) &&
    (match lookupField fields "category" with
     | some (.jstr _) => true
     | _ => false)
  | _ => false

/-- Extraction `{text: q.text, category: q.category}` from a parsed object;
meaningful on values satisfying `isQuoteObj`. -/
def toQuote (v : JValue) : Quote :=
  match v with
  | .jobj fields =>
    ⟨(match lookupField fields "text" with
      | some (.jstr s) => s
      | _ => ""),
     (match lookupField fields "category" with
      | some (.jstr s) => s
      | _ => "")⟩
  | _ => ⟨"", ""⟩

/-- The JSON encoding of a quote record, as produced by `JSON.stringify`
and recovered by `JSON.parse`. -/
def quoteToJson (q : Quote) : JValue :=
  .jobj [("text", .jstr q.text), ("category", .jstr q.category)]

/-- Parsed content of a file produced by the export routines, which write
`JSON.stringify(quotes, null, 2)`: re-parsing yields the array of encoded
records. -/
def exportJson (qs : List Quote) : JValue :=
  .jarr (qs.map quoteToJson)

/-- The default collection as in-memory JavaScript values. -/
def defaultQuotesJson : List JValue :=
  DEFAULT_QUOTES.map quoteToJson

/-!
## Loading from durable storage

`loadQuotes` input: `none` models an absent (or empty, hence falsy) stored
value under `alx_quotes_v1`; `some (Except.error ())` a present value on
which `JSON.parse` throws; `some (Except.ok v)` a successful parse.
The result is the in-memory `quotes` value (raw parsed values are kept
as-is, so the collection is a list of `JValue`s).
-/

/-- `loadQuotes` of variant A (script.js lines 51-66): any parsed array is
accepted wholesale; non-arrays throw and the catch installs the defaults. -/
def loadQuotesA (stored : Option (Except Unit JValue)) : List JValue :=
  match stored with
  | none => defaultQuotesJson
  | some (.error _) => defaultQuotesJson
  | some (.ok (.jarr xs)) => xs
  | some (.ok _) => defaultQuotesJson

/-- `loadQuotes` of variants B and P2 (part_002 lines 59-80): a parsed array
is accepted only when every element passes `isQuoteObj`; otherwise the
defaults are installed. -/
def loadQuotesP2 (stored : Option (Except Unit JValue)) : List JValue :=
  match stored with
  | none => defaultQuotesJson
  | some (.error _) => defaultQuotesJson
  | some (.ok (.jarr xs)) => if xs.all isQuoteObj then xs else defaultQuotesJson
  | some (.ok _) => defaultQuotesJson

/-!
## Adding a quote
-/

/-- Result of `addQuote`: the collection, the stored copy (`saveQuotes`
writes the serialized collection), and the modal message shown. -/
structure AddResult where
  quotes : List Quote
  stored : Option (List Quote)
  modal : Option String
deriving DecidableEq, Repr

/-- The JavaScript `String.prototype.trim`: strip leading and trailing
whitespace characters. -/
def jsTrim (s : String) : String :=
  String.mk (((s.data.dropWhile Char.isWhitespace).reverse.dropWhile
    Char.isWhitespace).reverse)

/-- `addQuote` (script.js lines 121-136, part_002 lines 186-209): trim both
inputs, reject if either is empty, otherwise push the trimmed record and
persist. -/
def addQuote (textRaw catRaw : String) (qs : List Quote)
    (stored : Option (List Quote)) : AddResult :=
  let text := jsTrim textRaw
  let category := jsTrim catRaw
  if text = "" ∨ category = "" then
    ⟨qs, stored, some "⚠ Please enter both a quote and a category."⟩
  else
    let qs' := qs ++ [⟨text, category⟩]
    ⟨qs', some qs', some "✅ Quote added successfully and synced!"⟩

/-!
## File import

The import routines run on the result of `JSON.parse` over the file text:
`Except.error ()` models a parse exception.  Variants A and P0 keep whatever
values the parsed array held, so their collections are lists of `JValue`s.
-/

/-- Result of an import over a raw (`JValue`) collection. -/
structure ImportResultJ where
  quotes : List JValue
  stored : Option (List JValue)
  modal : Option String
deriving Repr

/-- `importQuotes` of variant A (script.js lines 149-168): a parsed array
replaces the collection wholesale and is persisted; anything else (parse
error or non-array) shows the invalid-format modal and changes nothing. -/
def importQuotes (parseR : Except Unit JValue) (qs : List JValue)
    (stored : Option (List JValue)) : ImportResultJ :=
  match parseR with
  | .ok (.jarr imported) => ⟨imported, some imported, some "✅ Quotes imported successfully!"⟩
  | .ok _ => ⟨qs, stored, some "⚠ Invalid JSON file format."⟩
  | .error _ => ⟨qs, stored, some "⚠ Invalid JSON file format."⟩

/-- `importFromJsonFile` of variant P0 (part_000 lines 208-229): a parsed
array is appended in full (`quotes.push(...importedQuotes)`, no
de-duplication, no element validation) and persisted; a non-array or a
parse error shows a modal and changes nothing. -/
def importFromJsonFileP0 (parseR : Except Unit JValue) (qs : List JValue)
    (stored : Option (List JValue)) : ImportResultJ :=
  match parseR with
  | .ok (.jarr imported) =>
    ⟨qs ++ imported, some (qs ++ imported), some "Quotes imported successfully!"⟩
  | .ok _ => ⟨qs, stored, some "Invalid JSON format."⟩
  | .error _ => ⟨qs, stored, some "Error reading JSON file."⟩

/-- The de-duplication key `` `${q.text}||${q.category}` `` of variants
B and P2. -/
def quoteKey (q : Quote) : String :=
  q.text ++ "||" ++ q.category

/-- The `parsed.forEach` loop of the de-duplicating import: walk the list
of imported records, skipping any whose key is in the seen set, pushing the
rest and recording their keys, counting the additions. -/
def importDedupGo (seen : List String) (acc : List Quote) (n : Nat) :
    List Quote → List Quote × Nat
  | [] => (acc, n)
  | q :: rest =>
    if quoteKey q ∈ seen then importDedupGo seen acc n rest
    else importDedupGo (seen ++ [quoteKey q]) (acc ++ [q]) (n + 1) rest

/-- De-duplicating merge: seed the seen set with the keys of the existing
collection (`new Set(quotes.map(...))`) and run the loop. -/
def importDedup (qs imported : List Quote) : List Quote × Nat :=
  importDedupGo (qs.map quoteKey) qs 0 imported

/-- The success modal of the de-duplicating import. -/
def importedCountMsg (n : Nat) : String :=
  "✅ Imported " ++ toString n ++ " new quote(s)."

/-- Result of the de-duplicating import: collection, stored copy, modal,
and the reported count of added records (`none` on rejection). -/
structure ImportResult where
  quotes : List Quote
  stored : Option (List Quote)
  modal : Option String
  added : Option Nat
deriving DecidableEq, Repr

/-- `importFromJsonFile` of variants B and P2 (part_002 lines 261-296,
script.js lines 507-542): reject unless the parse yields an array whose
every element passes `isQuoteObj`; otherwise merge with de-duplication by
`quoteKey`, persist, and report the number added. -/
def importFromJsonFile (parseR : Except Unit JValue) (qs : List Quote)
    (stored : Option (List Quote)) : ImportResult :=
  match parseR with
  | .error _ => ⟨qs, stored, some "Failed to parse JSON file.", none⟩
  | .ok (.jarr xs) =>
    if xs.all isQuoteObj then
      let res := importDedup qs (xs.map toQuote)
      ⟨res.1, some res.1, some (importedCountMsg res.2), some res.2⟩
    else
      ⟨qs, stored, some "Invalid file format. Expected an array of \x7btext, category\x7d objects.", none⟩
  | .ok _ =>
    ⟨qs, stored, some "Invalid file format. Expected an array of \x7btext, category\x7d objects.", none⟩

/-!
## Server sync (variant A)
-/

/-- A mock server record; `fetchQuotesFromServer` reads only its `title`. -/
structure ServerPost where
  title : String
deriving DecidableEq, Repr

/-- The quote-shaped record built from a server item:
`\x7b text: item.title, category: "Server" \x7d`. -/
def serverPostToQuote (p : ServerPost) : Quote :=
  ⟨p.title, "Server"⟩

/-- `fetchQuotesFromServer` (script.js lines 178-191): on success, map the
items to quote-shaped records; on a fetch/parse failure, log to the console
and return the empty list.  Returns the quotes and the console output. -/
def fetchQuotesFromServer (r : Except Unit (List ServerPost)) :
    List Quote × List String :=
  match r with
  | .error _ => ([], ["Server fetch failed:"])
  | .ok data => (data.map serverPostToQuote, [])

/-- Result of one `syncQuotes` run. -/
structure SyncResult where
  quotes : List Quote
  stored : Option (List Quote)
  modal : Option String
  console : List String
deriving DecidableEq, Repr

/-- `syncQuotes` (script.js lines 213-237): fetch; bail out silently on an
empty result; otherwise compare the two text sequences and, on any
difference, overwrite the local collection with the server list and
persist, showing the conflict modal.  The source compares
`JSON.stringify(serverTexts) !== JSON.stringify(localTexts)`;
`JSON.stringify` is injective on arrays of strings, so this is exactly
inequality of the text lists. -/
def syncQuotes (r : Except Unit (List ServerPost)) (qs : List Quote)
    (stored : Option (List Quote)) : SyncResult :=
  let fr := fetchQuotesFromServer r
  let serverQuotes := fr.1
  if serverQuotes.isEmpty then ⟨qs, stored, none, fr.2⟩
  else
    let serverTexts := serverQuotes.map Quote.text
    let localTexts := qs.map Quote.text
    if serverTexts ≠ localTexts then
      ⟨serverQuotes, some serverQuotes,
       some "⚠ Conflict detected — local data replaced with server data!", fr.2⟩
    else
      ⟨qs, stored, none, fr.2 ++ ["✅ Quotes are already in sync."]⟩

/-!
## Category filter (variant B)
-/

/-- What `filterQuote` renders into `quoteDisplay`. -/
inductive FilterDisplay where
  | noQuotesMsg
  | noMatchMsg (cat : String)
  | list (shown : List Quote)
deriving DecidableEq, Repr

/-- The quotes visible in a rendered display; the two message screens show
no quotes. -/
def displayedQuotes : FilterDisplay → List Quote
  | .list shown => shown
  | _ => []

/-- `filterQuote` (script.js lines 588-635): on an empty collection render
the no-quotes message and return (before the `localStorage.setItem`);
otherwise persist the selection under `alx_quotes_selected_category`, keep
the whole collection for `"all"` or filter by exact category equality, and
render either the no-match message or the filtered list. -/
def filterQuote (selectedCategory : String) (qs : List Quote)
    (storedCategory : Option String) : FilterDisplay × Option String :=
  if qs.isEmpty then (.noQuotesMsg, storedCategory)
  else
    let filtered :=
      if selectedCategory = "all" then qs
      else qs.filter (fun q => q.category = selectedCategory)
    if filtered.isEmpty then (.noMatchMsg selectedCategory, some selectedCategory)
    else (.list filtered, some selectedCategory)

/-!
## Showing a quote
-/

/-- A JavaScript number argument as classified by `Number.isInteger`:
an integer, or anything else (`NaN`, a fractional value). -/
inductive JsNumber where
  | int (i : Int)
  | notInt
deriving DecidableEq, Repr

/-- Outcome of `showRandomQuote`: the empty-collection message, a rendered
quote read at an in-bounds index, or a thrown `TypeError` (destructuring
`undefined` after an out-of-bounds / non-integer element access). -/
inductive ShowResult where
  | emptyMsg
  | rendered (idx : Nat) (q : Quote)
  | thrown
deriving DecidableEq, Repr

/-- `showRandomQuote` of variant A (script.js lines 100-116): an explicit
index argument is used as-is (`index ?? random`); `quotes[chosen]` is
`undefined` for a negative, out-of-range or non-integer index, and the
destructuring then throws.  `randIdx` stands for
`Math.floor(Math.random() * quotes.length)`. -/
def showRandomQuoteA (index : Option JsNumber) (randIdx : Nat)
    (qs : List Quote) : ShowResult :=
  if qs.isEmpty then .emptyMsg
  else
    match index.getD (.int randIdx) with
    | .int i =>
      if i < 0 then .thrown
      else
        match qs[i.toNat]? with
        | some q => .rendered i.toNat q
        | none => .thrown
    | .notInt => .thrown

/-- `showRandomQuote` of variants B and P2 (part_002 lines 149-163): the
index argument is used only when `Number.isInteger(index) && index >= 0 &&
index < quotes.length`; otherwise a random in-range index is chosen. -/
def showRandomQuoteP2 (index : Option JsNumber) (randIdx : Nat)
    (qs : List Quote) : ShowResult :=
  if qs.isEmpty then .emptyMsg
  else
    let chosen : Nat :=
      match index with
      | some (.int i) => if 0 ≤ i ∧ i < (qs.length : Int) then i.toNat else randIdx
      | _ => randIdx
    match qs[chosen]? with
    | some q => .rendered chosen q
    | none => .thrown

/-!
## Specification helpers
-/

/-- First-occurrence filter by `quoteKey`: the sublist of records whose key
has not been seen, each kept occurrence adding its key.  This is the
characterization of what the de-duplicating import appends. -/
def newByKey (seen : List String) : List Quote → List Quote
  | [] => []
  | q :: rest =>
    if quoteKey q ∈ seen then newByKey seen rest
    else q :: newByKey (seen ++ [quoteKey q]) rest

/-!
## Helper lemmas
-/

/-- The de-duplication loop appends exactly the first-occurrence-by-key
records and counts them. -/
theorem importDedupGo_eq (imported : List Quote) :
    ∀ (seen : List String) (acc : List Quote) (n : Nat),
      importDedupGo seen acc n imported =
        (acc ++ newByKey seen imported, n + (newByKey seen imported).length) := by
  induction imported with
  | nil => intro seen acc n; simp [importDedupGo, newByKey]
  | cons q rest ih =>
    intro seen acc n
    by_cases h : quoteKey q ∈ seen
    · simp [importDedupGo, newByKey, h, ih]
    · simp only [importDedupGo, newByKey, if_neg h, ih, List.append_assoc,
        List.singleton_append, List.length_cons, Prod.mk.injEq]
      exact ⟨trivial, by omega⟩

/-- The merge result in closed form. -/
theorem importDedup_eq (qs imported : List Quote) :
    importDedup qs imported =
      (qs ++ newByKey (qs.map quoteKey) imported,
       (newByKey (qs.map quoteKey) imported).length) := by
  simp [importDedup, importDedupGo_eq]

/-- Records whose keys are all already seen contribute nothing. -/
theorem newByKey_eq_nil (l : List Quote) :
    ∀ seen : List String, (∀ q ∈ l, quoteKey q ∈ seen) → newByKey seen l = [] := by
  induction l with
  | nil => intro seen _; rfl
  | cons q rest ih =>
    intro seen h
    have hq : quoteKey q ∈ seen := h q (List.mem_cons_self q rest)
    simp only [newByKey, if_pos hq]
    exact ih seen fun p hp => h p (List.mem_cons_of_mem q hp)

/-- Round trip of the record encoding. -/
theorem toQuote_quoteToJson (q : Quote) : toQuote (quoteToJson q) = q := by
  simp [toQuote, quoteToJson, lookupField]

/-- Every encoded record passes the element validation. -/
theorem isQuoteObj_quoteToJson (q : Quote) : isQuoteObj (quoteToJson q) = true := by
  simp [isQuoteObj, quoteToJson, lookupField]

/-- An exported collection passes the array validation in full. -/
theorem all_isQuoteObj_export (qs : List Quote) :
    (qs.map quoteToJson).all isQuoteObj = true := by
  simp only [List.all_eq_true]
  intro v hv
  obtain ⟨q, _, rfl⟩ := List.mem_map.mp hv
  exact isQuoteObj_quoteToJson q

/-!
## Claim theorems
-/

/-- Claim C1: for every local collection and every non-empty list of server
quotes fetched by `syncQuotes`, if the sequence of server quote texts
differs from the sequence of local quote texts then after `syncQuotes` the
local collection equals exactly the server list and is re-persisted; if the
two text sequences are equal (even when categories differ) the local
collection and its stored copy are unchanged. -/
theorem syncQuotes_server_wins (posts : List ServerPost) (qs : List Quote)
    (stored : Option (List Quote)) (hne : posts ≠ []) :
    ((posts.map serverPostToQuote).map Quote.text ≠ qs.map Quote.text →
      (syncQuotes (.ok posts) qs stored).quotes = posts.map serverPostToQuote ∧
      (syncQuotes (.ok posts) qs stored).stored = some (posts.map serverPostToQuote)) ∧
    ((posts.map serverPostToQuote).map Quote.text = qs.map Quote.text →
      (syncQuotes (.ok posts) qs stored).quotes = qs ∧
      (syncQuotes (.ok posts) qs stored).stored = stored) := by
  have hme : (posts.map serverPostToQuote).isEmpty = false := by
    cases posts with
    | nil => exact absurd rfl hne
    | cons p l => rfl
  constructor
  · intro hdiff
    have hd : List.map (Quote.text ∘ serverPostToQuote) posts ≠ List.map Quote.text qs := by
      rw [← List.map_map]; exact hdiff
    simp [syncQuotes, fetchQuotesFromServer, hme, hd]
  · intro heq
    simp [syncQuotes, fetchQuotesFromServer, hme, heq]

/-- Witness for C1: a one-post server list against an empty local list. -/
theorem syncQuotes_server_wins_witness :
    (syncQuotes (.ok [⟨"t"⟩]) [] none).quotes = [Quote.mk "t" "Server"] ∧
    (syncQuotes (.ok [⟨"t"⟩]) [] none).stored = some [Quote.mk "t" "Server"] :=
  (syncQuotes_server_wins [⟨"t"⟩] [] none (by simp)).1 (by simp [serverPostToQuote])

/-- Claim C4: for every form input whose trimmed quote text or category is
empty, `addQuote` leaves the collection and its persisted copy unchanged and
shows the validation modal; when both trimmed fields are non-empty it
appends exactly one record holding the trimmed values. -/
theorem addQuote_validation (t c : String) (qs : List Quote)
    (st : Option (List Quote)) :
    ((jsTrim t = "" ∨ jsTrim c = "") →
      (addQuote t c qs st).quotes = qs ∧
      (addQuote t c qs st).stored = st ∧
      (addQuote t c qs st).modal = some "⚠ Please enter both a quote and a category.") ∧
    ((jsTrim t ≠ "" ∧ jsTrim c ≠ "") →
      (addQuote t c qs st).quotes = qs ++ [⟨jsTrim t, jsTrim c⟩] ∧
      (addQuote t c qs st).stored = some (qs ++ [⟨jsTrim t, jsTrim c⟩])) := by
  constructor
  · intro h
    simp [addQuote, h]
  · intro h
    simp only [addQuote]
    rw [if_neg (by push_neg; exact h)]
    exact ⟨rfl, rfl⟩

/-- Witness for C4: a whitespace-only text is rejected; padded non-empty
fields are appended trimmed. -/
theorem addQuote_validation_witness :
    ((addQuote " " "x" [] none).quotes = [] ∧
     (addQuote " " "x" [] none).stored = none ∧
     (addQuote " " "x" [] none).modal = some "⚠ Please enter both a quote and a category.") ∧
    ((addQuote "a " " b" [] none).quotes = [] ++ [⟨jsTrim "a ", jsTrim " b"⟩] ∧
     (addQuote "a " " b" [] none).stored = some ([] ++ [⟨jsTrim "a ", jsTrim " b"⟩])) :=
  ⟨(addQuote_validation " " "x" [] none).1 (Or.inl (by decide)),
   (addQuote_validation "a " " b" [] none).2 ⟨by decide, by decide⟩⟩

/-- Claim C7: a `syncQuotes` run whose fetch fails reports the failure to
the console only, shows no modal, and leaves the collection and its stored
copy unchanged; a run whose fetch yields an empty list likewise changes
nothing and surfaces nothing.  The embedding consumes exactly one fetch
result, so no retry occurs. -/
theorem syncQuotes_failure_silent (qs : List Quote) (stored : Option (List Quote)) :
    syncQuotes (.error ()) qs stored = ⟨qs, stored, none, ["Server fetch failed:"]⟩ ∧
    syncQuotes (.ok []) qs stored = ⟨qs, stored, none, []⟩ := by
  constructor <;> rfl

/-- Claim C2, counterexample: the variant-A `loadQuotes` (script.js lines
51-66) accepts a stored array whose single element is an object missing
both required string fields, instead of falling back to the defaults. -/
theorem loadQuotesA_accepts_malformed_array :
    loadQuotesA (some (.ok (.jarr [.jobj []]))) ≠ defaultQuotesJson ∧
    isQuoteObj (.jobj []) = false := by
  refine ⟨fun h => ?_, rfl⟩
  simpa [defaultQuotesJson, DEFAULT_QUOTES, loadQuotesA] using congrArg List.length h

/-- Claim C2, amended: for every stored value that is absent, unparseable,
or parses to a non-array, both `loadQuotes` variants install exactly the
three built-in default quotes; the validating variant (part_002) also does
so when the array holds an element without `text`/`category` strings, while
the variant-A loader accepts any parsed array as-is. -/
theorem loadQuotes_malformed_fallback (e : Option (Except Unit JValue))
    (xs : List JValue) (he : ∀ ys, e ≠ some (Except.ok (JValue.jarr ys)))
    (hxs : xs.all isQuoteObj = false) :
    loadQuotesP2 e = defaultQuotesJson ∧
    loadQuotesA e = defaultQuotesJson ∧
    loadQuotesP2 (some (.ok (.jarr xs))) = defaultQuotesJson := by
  refine ⟨?_, ?_, by simp [loadQuotesP2, hxs]⟩
  · match e with
    | none => rfl
    | some (.error _) => rfl
    | some (.ok .jnull) => rfl
    | some (.ok (.jbool _)) => rfl
    | some (.ok (.jnum _)) => rfl
    | some (.ok (.jstr _)) => rfl
    | some (.ok (.jobj _)) => rfl
    | some (.ok (.jarr ys)) => exact absurd rfl (he ys)
  · match e with
    | none => rfl
    | some (.error _) => rfl
    | some (.ok .jnull) => rfl
    | some (.ok (.jbool _)) => rfl
    | some (.ok (.jnum _)) => rfl
    | some (.ok (.jstr _)) => rfl
    | some (.ok (.jobj _)) => rfl
    | some (.ok (.jarr ys)) => exact absurd rfl (he ys)

/-- Witness for C2: an absent stored value, and an array holding one
field-less object. -/
theorem loadQuotes_malformed_fallback_witness :
    loadQuotesP2 none = defaultQuotesJson ∧
    loadQuotesA none = defaultQuotesJson ∧
    loadQuotesP2 (some (.ok (.jarr [.jobj []]))) = defaultQuotesJson :=
  loadQuotes_malformed_fallback none [.jobj []]
    (fun ys h => by cases h) rfl

/-- Claim C3, counterexample: in the part_000 variant, exporting the
one-quote collection and importing the file back appends a duplicate, so
the collection is neither unchanged nor equal to the exported list. -/
theorem importP0_roundtrip_duplicates :
    (importFromJsonFileP0 (.ok (exportJson [⟨"a", "b"⟩]))
        ([Quote.mk "a" "b"].map quoteToJson)
        (some ([Quote.mk "a" "b"].map quoteToJson))).quotes ≠
      [Quote.mk "a" "b"].map quoteToJson := by
  intro h
  simpa [importFromJsonFileP0, exportJson] using congrArg List.length h

/-- Claim C3, amended: exporting a collection and importing the same file
back leaves the collection unchanged with zero additions in the
de-duplicating variants (B and P2), replaces the collection with exactly
the exported list in the replacing variant (A), and appends a full second
copy of the exported list in the plain-append variant (P0). -/
theorem export_import_roundtrip (qs : List Quote) (stored : Option (List Quote))
    (storedJ : Option (List JValue)) :
    (importFromJsonFile (.ok (exportJson qs)) qs stored).quotes = qs ∧
    (importFromJsonFile (.ok (exportJson qs)) qs stored).added = some 0 ∧
    (importQuotes (.ok (exportJson qs)) (qs.map quoteToJson) storedJ).quotes =
      qs.map quoteToJson ∧
    (importFromJsonFileP0 (.ok (exportJson qs)) (qs.map quoteToJson) storedJ).quotes =
      qs.map quoteToJson ++ qs.map quoteToJson := by
  have hdec : (qs.map quoteToJson).map toQuote = qs := by
    rw [List.map_map]
    exact List.map_id'' toQuote_quoteToJson qs
  have hnil : newByKey (qs.map quoteKey) (qs.map (toQuote ∘ quoteToJson)) = [] := by
    rw [← List.map_map, hdec]
    exact newByKey_eq_nil qs _ fun q hq => List.mem_map_of_mem quoteKey hq
  have h2 : importFromJsonFile (.ok (exportJson qs)) qs stored =
      ⟨qs, some qs, some (importedCountMsg 0), some 0⟩ := by
    simp [importFromJsonFile, exportJson, all_isQuoteObj_export,
      importDedup_eq, hnil]
  refine ⟨by rw [h2], by rw [h2], rfl, rfl⟩

/-- Claim C5: for every imported file whose content is not valid JSON or
not an array — and, in the validating variants, whose array holds an
element that is not a `\x7btext: string, category: string\x7d` object —
every import routine shows a modal and leaves the collection and its stored
copy entirely unchanged. -/
theorem import_rejects_malformed (qsJ : List JValue) (stJ : Option (List JValue))
    (qs : List Quote) (st : Option (List Quote)) (v : JValue) (xs : List JValue)
    (hv : ∀ ys, v ≠ JValue.jarr ys) (hxs : xs.all isQuoteObj = false) :
    importQuotes (.error ()) qsJ stJ = ⟨qsJ, stJ, some "⚠ Invalid JSON file format."⟩ ∧
    importQuotes (.ok v) qsJ stJ = ⟨qsJ, stJ, some "⚠ Invalid JSON file format."⟩ ∧
    importFromJsonFileP0 (.error ()) qsJ stJ = ⟨qsJ, stJ, some "Error reading JSON file."⟩ ∧
    importFromJsonFileP0 (.ok v) qsJ stJ = ⟨qsJ, stJ, some "Invalid JSON format."⟩ ∧
    importFromJsonFile (.error ()) qs st = ⟨qs, st, some "Failed to parse JSON file.", none⟩ ∧
    importFromJsonFile (.ok v) qs st =
      ⟨qs, st, some "Invalid file format. Expected an array of \x7btext, category\x7d objects.", none⟩ ∧
    importFromJsonFile (.ok (.jarr xs)) qs st =
      ⟨qs, st, some "Invalid file format. Expected an array of \x7btext, category\x7d objects.", none⟩ := by
  refine ⟨rfl, ?_, rfl, ?_, rfl, ?_, ?_⟩
  · match v with
    | .jnull => rfl
    | .jbool _ => rfl
    | .jnum _ => rfl
    | .jstr _ => rfl
    | .jobj _ => rfl
    | .jarr ys => exact absurd rfl (hv ys)
  · match v with
    | .jnull => rfl
    | .jbool _ => rfl
    | .jnum _ => rfl
    | .jstr _ => rfl
    | .jobj _ => rfl
    | .jarr ys => exact absurd rfl (hv ys)
  · match v with
    | .jnull => rfl
    | .jbool _ => rfl
    | .jnum _ => rfl
    | .jstr _ => rfl
    | .jobj _ => rfl
    | .jarr ys => exact absurd rfl (hv ys)
  · simp [importFromJsonFile, hxs]

/-- Witness for C5: a parse error, a non-array value, and an array holding
a null element, against empty collections. -/
theorem import_rejects_malformed_witness :
    importQuotes (.error ()) [] none = ⟨[], none, some "⚠ Invalid JSON file format."⟩ ∧
    importQuotes (.ok (.jnum 1)) [] none = ⟨[], none, some "⚠ Invalid JSON file format."⟩ ∧
    importFromJsonFileP0 (.error ()) [] none = ⟨[], none, some "Error reading JSON file."⟩ ∧
    importFromJsonFileP0 (.ok (.jnum 1)) [] none = ⟨[], none, some "Invalid JSON format."⟩ ∧
    importFromJsonFile (.error ()) [] none = ⟨[], none, some "Failed to parse JSON file.", none⟩ ∧
    importFromJsonFile (.ok (.jnum 1)) [] none =
      ⟨[], none, some "Invalid file format. Expected an array of \x7btext, category\x7d objects.", none⟩ ∧
    importFromJsonFile (.ok (.jarr [.jnull])) [] none =
      ⟨[], none, some "Invalid file format. Expected an array of \x7btext, category\x7d objects.", none⟩ :=
  import_rejects_malformed [] none [] none (.jnum 1) [.jnull]
    (fun ys h => by cases h) rfl

/-- Claim C6, counterexample: on an empty collection, `filterQuote` returns
before the `localStorage.setItem` call, so the selected category is not
persisted under the category key. -/
theorem filterQuote_empty_skips_persist :
    (filterQuote "Motivation" [] none).2 ≠ some "Motivation" := by
  intro h
  cases h

/-- Claim C6, amended: on a non-empty collection, `filterQuote` displays
exactly the quotes whose category equals the selection — the whole
collection for `"all"` — and persists the selection under the category
key; on an empty collection it renders the no-quotes message and leaves
the persisted selection untouched. -/
theorem filterQuote_filters_by_category (sel : String) (qs : List Quote)
    (sc : Option String) (hne : qs ≠ []) :
    displayedQuotes (filterQuote sel qs sc).1 =
      (if sel = "all" then qs else qs.filter (fun q => q.category = sel)) ∧
    (filterQuote sel qs sc).2 = some sel ∧
    filterQuote sel [] sc = (.noQuotesMsg, sc) := by
  have hme : qs.isEmpty = false := by
    cases qs with
    | nil => exact absurd rfl hne
    | cons q l => rfl
  refine ⟨?_, ?_, rfl⟩
  · by_cases hall : sel = "all"
    · simp [filterQuote, hme, hall, displayedQuotes]
    · by_cases hfil : (qs.filter (fun q => q.category = sel)).isEmpty
      · simp [filterQuote, hme, hall, hfil, displayedQuotes,
          List.isEmpty_iff.mp hfil]
      · simp [filterQuote, hme, hall, hfil, displayedQuotes]
  · by_cases hall : sel = "all"
    · simp [filterQuote, hme, hall]
    · by_cases hfil : (qs.filter (fun q => q.category = sel)).isEmpty
      · simp [filterQuote, hme, hall, hfil]
      · simp [filterQuote, hme, hall, hfil]

/-- Witness for C6: filtering the default collection by one of its
categories. -/
theorem filterQuote_filters_by_category_witness :
    displayedQuotes (filterQuote "Motivation" DEFAULT_QUOTES none).1 =
      (if "Motivation" = "all" then DEFAULT_QUOTES
       else DEFAULT_QUOTES.filter (fun q => q.category = "Motivation")) ∧
    (filterQuote "Motivation" DEFAULT_QUOTES none).2 = some "Motivation" ∧
    filterQuote "Motivation" [] none = (.noQuotesMsg, none) :=
  filterQuote_filters_by_category "Motivation" DEFAULT_QUOTES none (by decide)

/-- Claim C8: any run of `addQuote`, the validating `importFromJsonFile`,
or `syncQuotes` that changes the in-memory collection persists the new
collection: afterwards the durable copy equals the in-memory value. -/
theorem mutations_persist (t c : String) (qs : List Quote)
    (st : Option (List Quote)) (r : Except Unit JValue)
    (fr : Except Unit (List ServerPost)) :
    ((addQuote t c qs st).quotes ≠ qs →
      (addQuote t c qs st).stored = some (addQuote t c qs st).quotes) ∧
    ((importFromJsonFile r qs st).quotes ≠ qs →
      (importFromJsonFile r qs st).stored = some (importFromJsonFile r qs st).quotes) ∧
    ((syncQuotes fr qs st).quotes ≠ qs →
      (syncQuotes fr qs st).stored = some (syncQuotes fr qs st).quotes) := by
  refine ⟨?_, ?_, ?_⟩
  · intro hch
    by_cases h : jsTrim t = "" ∨ jsTrim c = ""
    · exact absurd ((addQuote_validation t c qs st).1 h).1 hch
    · push_neg at h
      have h1 := ((addQuote_validation t c qs st).2 h).1
      have h2 := ((addQuote_validation t c qs st).2 h).2
      rw [h1]
      exact h2
  · intro hch
    match r with
    | .error _ => exact absurd rfl hch
    | .ok .jnull => exact absurd rfl hch
    | .ok (.jbool _) => exact absurd rfl hch
    | .ok (.jnum _) => exact absurd rfl hch
    | .ok (.jstr _) => exact absurd rfl hch
    | .ok (.jobj _) => exact absurd rfl hch
    | .ok (.jarr xs) =>
      by_cases hval : xs.all isQuoteObj
      · simp [importFromJsonFile, hval]
      · simp [importFromJsonFile, hval] at hch ⊢
  · intro hch
    match fr with
    | .error _ => exact absurd rfl hch
    | .ok posts =>
      by_cases hne : (posts.map serverPostToQuote).isEmpty
      · simp [syncQuotes, fetchQuotesFromServer, hne] at hch
      · by_cases heq : posts.map (Quote.text ∘ serverPostToQuote) = qs.map Quote.text
        · simp [syncQuotes, fetchQuotesFromServer, hne, heq] at hch
        · simp [syncQuotes, fetchQuotesFromServer, hne, heq]

/-- Witness for C8: a successful add on the empty collection persists the
one-element result. -/
theorem mutations_persist_witness :
    (addQuote "a" "b" [] none).stored = some (addQuote "a" "b" [] none).quotes :=
  (mutations_persist "a" "b" [] none (.error ()) (.error ())).1 (by decide)

/-- Claim C9, counterexample: the variant-A `showRandomQuote` (script.js
lines 100-116) uses an explicit index argument unchecked; with the
three-quote default collection and the stale index 5 the element access
yields `undefined` and the destructuring throws. -/
theorem showRandomQuoteA_out_of_range_throws :
    showRandomQuoteA (some (JsNumber.int 5)) 0 DEFAULT_QUOTES = ShowResult.thrown ∧
    DEFAULT_QUOTES.length = 3 := by
  exact ⟨rfl, rfl⟩

/-- Claim C9, amended: in the clamped variants (B and P2), for every index
argument — out-of-range, negative, or not an integer — the index actually
read lies within `[0, length)` of the non-empty collection, so rendering
never reads past the end or throws; the variant-A `showRandomQuote` is safe
only on the no-argument (random) path. -/
theorem showRandomQuote_index_in_range (index : Option JsNumber) (randIdx : Nat)
    (qs : List Quote) (hr : randIdx < qs.length) :
    (∃ i q, i < qs.length ∧ qs[i]? = some q ∧
      showRandomQuoteP2 index randIdx qs = ShowResult.rendered i q) ∧
    (∃ q, qs[randIdx]? = some q ∧
      showRandomQuoteA none randIdx qs = ShowResult.rendered randIdx q) := by
  have hme : qs.isEmpty = false := by
    cases qs with
    | nil => simp at hr
    | cons a l => rfl
  have hrand : qs[randIdx]? = some (qs.get ⟨randIdx, hr⟩) := by
    rw [List.getElem?_eq_getElem hr]
    rfl
  constructor
  · match index with
    | none =>
      exact ⟨randIdx, qs.get ⟨randIdx, hr⟩, hr, hrand, by
        simp [showRandomQuoteP2, hme, hrand]⟩
    | some .notInt =>
      exact ⟨randIdx, qs.get ⟨randIdx, hr⟩, hr, hrand, by
        simp [showRandomQuoteP2, hme, hrand]⟩
    | some (.int i) =>
      by_cases hin : 0 ≤ i ∧ i < (qs.length : Int)
      · have hlt : i.toNat < qs.length := by omega
        have hget : qs[i.toNat]? = some (qs.get ⟨i.toNat, hlt⟩) := by
          rw [List.getElem?_eq_getElem hlt]
          rfl
        exact ⟨i.toNat, qs.get ⟨i.toNat, hlt⟩, hlt, hget, by
          simp [showRandomQuoteP2, hme, hin, hget]⟩
      · exact ⟨randIdx, qs.get ⟨randIdx, hr⟩, hr, hrand, by
          simp [showRandomQuoteP2, hme, hin, hrand]⟩
  · refine ⟨qs.get ⟨randIdx, hr⟩, hrand, ?_⟩
    have hnn : ¬ ((randIdx : Int) < 0) := by omega
    simp [showRandomQuoteA, hme, hnn, hrand]

/-- Witness for C9: an out-of-range argument against the default
collection is redirected to the in-range random index. -/
theorem showRandomQuote_index_in_range_witness :
    (∃ i q, i < DEFAULT_QUOTES.length ∧ DEFAULT_QUOTES[i]? = some q ∧
      showRandomQuoteP2 (some (JsNumber.int 7)) 1 DEFAULT_QUOTES = ShowResult.rendered i q) ∧
    (∃ q, DEFAULT_QUOTES[1]? = some q ∧
      showRandomQuoteA none 1 DEFAULT_QUOTES = ShowResult.rendered 1 q) :=
  showRandomQuote_index_in_range (some (JsNumber.int 7)) 1 DEFAULT_QUOTES (by decide)

/-- Claim C10, counterexample: the de-duplication key is the string
`text || "||" || category`, which conflates distinct pairs: importing
`\x7btext: "a", category: "b||c"\x7d` into a collection holding only
`\x7btext: "a||b", category: "c"\x7d` appends nothing and reports zero
additions although the imported pair is not present. -/
theorem importDedup_key_collision :
    (importFromJsonFile (.ok (.jarr [quoteToJson ⟨"a", "b||c"⟩]))
        [⟨"a||b", "c"⟩] none).quotes = [⟨"a||b", "c"⟩] ∧
    (importFromJsonFile (.ok (.jarr [quoteToJson ⟨"a", "b||c"⟩]))
        [⟨"a||b", "c"⟩] none).added = some 0 ∧
    (Quote.mk "a" "b||c") ∉ ([⟨"a||b", "c"⟩] : List Quote) := by
  refine ⟨?_, ?_, by decide⟩ <;>
    simp [importFromJsonFile, importDedup, importDedupGo, isQuoteObj, toQuote,
      quoteToJson, lookupField, quoteKey]

/-- Claim C10, amended: in the de-duplicating variants, for every existing
collection and every valid imported array, import is append-only and
order-preserving — the first `old length` records are unchanged, the
appended records are exactly the imported records whose de-duplication key
`text ++ "||" ++ category` was not already present (first occurrence kept,
in imported order), and the reported count equals the number of records
appended. -/
theorem import_dedup_append_spec (xs : List JValue) (qs : List Quote)
    (stored : Option (List Quote)) (hval : xs.all isQuoteObj = true) :
    (importFromJsonFile (.ok (.jarr xs)) qs stored).quotes.take qs.length = qs ∧
    (importFromJsonFile (.ok (.jarr xs)) qs stored).quotes =
      qs ++ newByKey (qs.map quoteKey) (xs.map toQuote) ∧
    (importFromJsonFile (.ok (.jarr xs)) qs stored).added =
      some (newByKey (qs.map quoteKey) (xs.map toQuote)).length := by
  have h : importFromJsonFile (.ok (.jarr xs)) qs stored =
      ⟨qs ++ newByKey (qs.map quoteKey) (xs.map toQuote),
       some (qs ++ newByKey (qs.map quoteKey) (xs.map toQuote)),
       some (importedCountMsg (newByKey (qs.map quoteKey) (xs.map toQuote)).length),
       some (newByKey (qs.map quoteKey) (xs.map toQuote)).length⟩ := by
    simp [importFromJsonFile, hval, importDedup_eq]
  rw [h]
  exact ⟨List.take_left qs _, rfl, rfl⟩

/-- Witness for C10: importing one fresh and one already-present record
into the default collection appends exactly the fresh one. -/
theorem import_dedup_append_spec_witness :
    (importFromJsonFile
        (.ok (.jarr [quoteToJson ⟨"x", "y"⟩,
                     quoteToJson ⟨"In the middle of difficulty lies opportunity.", "Inspiration"⟩]))
        DEFAULT_QUOTES none).quotes.take DEFAULT_QUOTES.length = DEFAULT_QUOTES ∧
    (importFromJsonFile
        (.ok (.jarr [quoteToJson ⟨"x", "y"⟩,
                     quoteToJson ⟨"In the middle of difficulty lies opportunity.", "Inspiration"⟩]))
        DEFAULT_QUOTES none).quotes =
      DEFAULT_QUOTES ++ newByKey (DEFAULT_QUOTES.map quoteKey)
        ([quoteToJson ⟨"x", "y"⟩,
          quoteToJson ⟨"In the middle of difficulty lies opportunity.", "Inspiration"⟩].map toQuote) ∧
    (importFromJsonFile
        (.ok (.jarr [quoteToJson ⟨"x", "y"⟩,
                     quoteToJson ⟨"In the middle of difficulty lies opportunity.", "Inspiration"⟩]))
        DEFAULT_QUOTES none).added =
      some (newByKey (DEFAULT_QUOTES.map quoteKey)
        ([quoteToJson ⟨"x", "y"⟩,
          quoteToJson ⟨"In the middle of difficulty lies opportunity.", "Inspiration"⟩].map toQuote)).length :=
  import_dedup_append_spec
    [quoteToJson ⟨"x", "y"⟩,
     quoteToJson ⟨"In the middle of difficulty lies opportunity.", "Inspiration"⟩]
    DEFAULT_QUOTES none (by decide)
